import Mathlib

set_option maxRecDepth 4000

/-!
Verification development for the libssh packet-cipher engine
(src/libmbedcrypto.c) and the OpenSSH private-key container codec
(src/pki_container_openssh.c), as a shallow embedding.

Bytes are modelled as `Nat` (with `< 256` hypotheses where byte width
matters).  External cryptographic primitives (mbedTLS GCM, ChaCha20
keystream, Poly1305, bcrypt_pbkdf) and external key-object parsing are
parameters of the embedded functions: the code under scrutiny only
sequences and checks them.  Error codes follow libssh: SSH_OK = 0,
SSH_ERROR = -1.
-/

namespace LibsshProof

def SSH_OK : Int := 0

def SSH_ERROR : Int := -1

/-- ASCII bytes of a literal string. -/
def ascii (s : String) : List Nat := s.data.map (fun c => c.toNat)

/-- The bytes a C `char *` view exposes: everything before the first NUL.
Comparisons done with `strcmp` in the source are equality of these views. -/
def cstr (l : List Nat) : List Nat := l.takeWhile (fun b => decide (b ≠ 0))

/-- Big-endian 4-byte encoding of a 32-bit value (`PUSH_BE_U32` / buffer pack `d`). -/
def be32 (n : Nat) : List Nat :=
  [n / 16777216 % 256, n / 65536 % 256, n / 256 % 256, n % 256]

/-- Big-endian 8-byte encoding of a 64-bit value (`PUSH_BE_U64`). -/
def be64 (n : Nat) : List Nat :=
  [n / 72057594037927936 % 256, n / 281474976710656 % 256,
   n / 1099511627776 % 256, n / 4294967296 % 256,
   n / 16777216 % 256, n / 65536 % 256, n / 256 % 256, n % 256]

/-- Value of a little-endian byte list. -/
def leToNat : List Nat → Nat
  | [] => 0
  | b :: r => b + 256 * leToNat r

/-- Value of a big-endian byte list. -/
def beToNat (l : List Nat) : Nat := leToNat l.reverse

/-- One increment step with carry on a little-endian byte list: the C loop
`for (i = n-1; i >= 0; i--) \x7b counter[i]++; if (counter[i]) return; \x7d`
read from the least significant end. -/
def inc_le : List Nat → List Nat
  | [] => []
  | b :: r => if b + 1 < 256 then (b + 1) :: r else 0 :: inc_le r

/-- Big-endian byte-counter increment (wraps at 256^length). -/
def be_inc (l : List Nat) : List Nat := (inc_le l.reverse).reverse

/-- Modelled from the spec: `uint64_inc` is repository code that lives outside
src/ (libssh misc.c).  The code under src/ calls it as
`uint64_inc(cipher->last_iv + 4)` on the 12-byte GCM IV, so its argument is the
trailing 8 bytes of the IV and, per its name and the spec's description of the
per-packet nonce counter, it performs an in-place big-endian increment of that
64-bit counter. -/
def uint64_inc (l : List Nat) : List Nat := be_inc l

/-! ## AES-GCM packet engine (src/libmbedcrypto.c, cipher_encrypt_gcm /
cipher_decrypt_gcm)

The mbedTLS primitives `mbedtls_gcm_crypt_and_tag` and
`mbedtls_gcm_auth_decrypt` are external collaborators, passed in as function
parameters.  A GCM session carries the running 12-byte IV `last_iv`;
`lenfield_blocksize` is 4 and `tag_size` 16 for both GCM table entries. -/

structure GcmCipher where
  last_iv : List Nat
deriving DecidableEq

/-- The IV update performed by the source after each GCM packet:
`uint64_inc(cipher->last_iv + 4)` leaves bytes 0..4 alone and increments the
trailing 8 bytes as one big-endian counter. -/
def gcm_iv_inc (iv : List Nat) : List Nat := iv.take 4 ++ uint64_inc (iv.drop 4)

structure GcmEncResult where
  out : List Nat
  tag : List Nat
  cipher : GcmCipher
deriving DecidableEq

/-- `cipher_encrypt_gcm`: the 4-byte length field is copied in clear and fed
as AAD; the primitive encrypts the rest and produces the tag; on primitive
success the IV is incremented for the next invocation.  The primitive
parameter receives (IV, aad, plaintext) and returns (ciphertext, tag), or
`none` for a backend failure (in which case the source returns early with the
IV unchanged and only the length bytes copied to the output). -/
def cipher_encrypt_gcm
    (prim : List Nat → List Nat → List Nat → Option (List Nat × List Nat))
    (c : GcmCipher) (input : List Nat) : GcmEncResult :=
  match prim c.last_iv (input.take 4) (input.drop 4) with
  | none => ⟨input.take 4, [], c⟩
  | some r => ⟨input.take 4 ++ r.1, r.2, ⟨gcm_iv_inc c.last_iv⟩⟩

structure GcmDecResult where
  rc : Int
  out : Option (List Nat)
  cipher : GcmCipher
deriving DecidableEq

/-- `cipher_decrypt_gcm`: one combined decrypt-and-verify call on the
primitive, receiving (IV, aad = first 4 bytes, received tag, ciphertext); the
primitive returns the plaintext only if the tag verifies.  On failure the
source returns SSH_ERROR with nothing written and the IV unchanged; on success
it releases the plaintext and increments the IV. -/
def cipher_decrypt_gcm
    (prim : List Nat → List Nat → List Nat → List Nat → Option (List Nat))
    (c : GcmCipher) (packet : List Nat) (size : Nat) : GcmDecResult :=
  match prim c.last_iv (packet.take 4) ((packet.drop (4 + size)).take 16)
      ((packet.drop 4).take size) with
  | none => ⟨SSH_ERROR, none, c⟩
  | some pt => ⟨SSH_OK, some pt, ⟨gcm_iv_inc c.last_iv⟩⟩

/-- Definition following claim C2's words (for comparison only, not from the
source): update the IV by incrementing "exactly its lower 32 bits, i.e. bytes
4..8 of the 12-byte IV", leaving all other bytes unchanged. -/
def spec_c2_iv_update (iv : List Nat) : List Nat :=
  iv.take 4 ++ be_inc ((iv.drop 4).take 4) ++ iv.drop 8

/-- Second reading of claim C2's words (for comparison only): "lower 32 bits"
taken literally as the least significant 4 bytes of the 12-byte IV, bytes
8..12, incremented with all other bytes unchanged. -/
def spec_c2_iv_update_low (iv : List Nat) : List Nat :=
  iv.take 8 ++ be_inc (iv.drop 8)

/-! ## ChaCha20-Poly1305 combined construction (src/libmbedcrypto.c)

`mbedtls_chacha20` contexts are a key, a nonce and a keystream position; the
keystream itself is the external parameter `stream` (key → nonce → absolute
byte position → keystream byte), and `mbedtls_chacha20_update` XORs data
against it.  Poly1305 is the external parameter `poly` (32-byte one-time key →
message → 16-byte tag); an mbedTLS poly1305 context accumulates the message
between `starts` and `finish`. -/

structure ChaChaCtx where
  key : List Nat
  nonce : List Nat
  pos : Nat
deriving DecidableEq

/-- `mbedtls_chacha20_starts`: set nonce and block counter (64-byte blocks). -/
def chacha20_starts (ctx : ChaChaCtx) (nonce : List Nat) (counter : Nat) : ChaChaCtx :=
  ⟨ctx.key, nonce, 64 * counter⟩

/-- `mbedtls_chacha20_update`: XOR the data against the keystream from the
current position, advancing the position. -/
def chacha20_update (stream : List Nat → List Nat → Nat → Nat)
    (ctx : ChaChaCtx) (data : List Nat) : List Nat × ChaChaCtx :=
  (List.zipWith (fun b i => Nat.xor b (stream ctx.key ctx.nonce (ctx.pos + i)))
     data (List.range data.length),
   ⟨ctx.key, ctx.nonce, ctx.pos + data.length⟩)

structure PolyCtx where
  key : List Nat
  msg : List Nat
deriving DecidableEq

/-- `mbedtls_poly1305_starts`: fix the 32-byte one-time key, empty message. -/
def poly1305_starts (key : List Nat) : PolyCtx := ⟨key.take 32, []⟩

/-- `mbedtls_poly1305_update`: append to the authenticated message. -/
def poly1305_update (ctx : PolyCtx) (d : List Nat) : PolyCtx := ⟨ctx.key, ctx.msg ++ d⟩

/-- `mbedtls_poly1305_finish`: produce the tag via the external Poly1305 MAC. -/
def poly1305_finish (poly : List Nat → List Nat → List Nat) (ctx : PolyCtx) : List Nat :=
  poly ctx.key ctx.msg

/-- `struct chacha20_poly1305_keysched`: main instance (payload + one-time
Poly1305 key), header instance (length field), per-packet Poly1305 state. -/
structure ChaChaPolyState where
  main_ctx : ChaChaCtx
  header_ctx : ChaChaCtx
  poly_ctx : PolyCtx
deriving DecidableEq

/-- `chacha20_poly1305_set_key`: the first half of the 64-byte secret keys the
main instance, the second half keys the header instance. -/
def chacha20_poly1305_set_key (st : ChaChaPolyState) (key : List Nat) : ChaChaPolyState :=
  ⟨⟨key.take 32, st.main_ctx.nonce, st.main_ctx.pos⟩,
   ⟨(key.drop 32).take 32, st.header_ctx.nonce, st.header_ctx.pos⟩,
   st.poly_ctx⟩

/-- The per-packet nonce: 4 zero bytes then the sequence number, big-endian,
in the trailing 8 bytes (`PUSH_BE_U64(seqbuf, 4, seq)`). -/
def chacha_nonce (seq : Nat) : List Nat := List.replicate 4 0 ++ be64 seq

def zero_block : List Nat := List.replicate 64 0

/-- `chacha20_poly1305_set_iv`: restart both instances on the per-packet nonce
with block counter 0. -/
def chacha20_poly1305_set_iv (st : ChaChaPolyState) (seq : Nat) : ChaChaPolyState :=
  ⟨chacha20_starts st.main_ctx (chacha_nonce seq) 0,
   chacha20_starts st.header_ctx (chacha_nonce seq) 0,
   st.poly_ctx⟩

/-- Observable operations of the combined construction, for stating the order
in which the source performs them. -/
inductive Event where
  | set_iv
  | main_discard
  | header_crypt_len
  | main_crypt_payload
  | poly_mac
deriving DecidableEq

/-- `chacha20_poly1305_packet_setup`: on encryption set the IV first (on
decryption that already happened in the length step); then push one full
zero block through the main instance — advancing its counter to block 1 —
and use the output block as the one-time Poly1305 key. -/
def chacha20_poly1305_packet_setup (stream : List Nat → List Nat → Nat → Nat)
    (st : ChaChaPolyState) (seq : Nat) (do_encrypt : Bool) :
    ChaChaPolyState × List Event :=
  let st1 := if do_encrypt then chacha20_poly1305_set_iv st seq else st
  let r := chacha20_update stream st1.main_ctx zero_block
  (⟨r.2, st1.header_ctx, poly1305_starts r.1⟩,
   (if do_encrypt then [Event.set_iv] else []) ++ [Event.main_discard])

structure AeadEncResult where
  out : List Nat
  tag : List Nat
  state : ChaChaPolyState
  trace : List Event
deriving DecidableEq

/-- `chacha20_poly1305_aead_encrypt`: packet setup (IV + discarded block),
then encrypt the 4-byte length field with the header instance, then the
payload with the main instance (counter already at block 1), then Poly1305
over the entire output packet. -/
def chacha20_poly1305_aead_encrypt (stream : List Nat → List Nat → Nat → Nat)
    (poly : List Nat → List Nat → List Nat)
    (st : ChaChaPolyState) (input : List Nat) (seq : Nat) : AeadEncResult :=
  let s := chacha20_poly1305_packet_setup stream st seq true
  let hl := chacha20_update stream s.1.header_ctx (input.take 4)
  let pl := chacha20_update stream s.1.main_ctx (input.drop 4)
  let out := hl.1 ++ pl.1
  let pc := poly1305_update s.1.poly_ctx out
  ⟨out, poly1305_finish poly pc, ⟨pl.2, hl.2, pc⟩,
   s.2 ++ [Event.header_crypt_len, Event.main_crypt_payload, Event.poly_mac]⟩

/-- Definition following claim C3's words (for comparison only): the claimed
order of operations — header-encrypt, then discard-block, then
payload-encrypt, then MAC-over-ciphertext. -/
def spec_c3_claimed_order : List Event :=
  [Event.header_crypt_len, Event.main_discard, Event.main_crypt_payload, Event.poly_mac]

/-- `chacha20_poly1305_aead_decrypt_length`: decrypt the 4-byte length field
with the header instance after setting the per-packet IV on both instances. -/
def chacha20_poly1305_aead_decrypt_length (stream : List Nat → List Nat → Nat → Nat)
    (st : ChaChaPolyState) (input : List Nat) (seq : Nat) :
    Option (List Nat × ChaChaPolyState) :=
  if input.length < 4 then none
  else
    let st1 := chacha20_poly1305_set_iv st seq
    let r := chacha20_update stream st1.header_ctx (input.take 4)
    some (r.1, ⟨st1.main_ctx, r.2, st1.poly_ctx⟩)

/-- The 16-byte MAC attached to a received packet:
`complete_packet + sizeof(uint32_t) + encrypted_size`. -/
def chachapoly_recv_mac (packet : List Nat) (size : Nat) : List Nat :=
  (packet.drop (4 + size)).take 16

/-- The Poly1305 tag the source recomputes over the received encrypted length
and ciphertext, using the one-time key from the packet setup. -/
def chachapoly_computed_tag (stream : List Nat → List Nat → Nat → Nat)
    (poly : List Nat → List Nat → List Nat)
    (st : ChaChaPolyState) (packet : List Nat) (size : Nat) (seq : Nat) : List Nat :=
  let s := chacha20_poly1305_packet_setup stream st seq false
  poly1305_finish poly (poly1305_update s.1.poly_ctx (packet.take (4 + size)))

structure AeadDecResult where
  rc : Int
  out : Option (List Nat)
  state : ChaChaPolyState
deriving DecidableEq

/-- `chacha20_poly1305_aead_decrypt`: recompute the Poly1305 tag over the
received data, compare it (`secure_memcmp`, modelled by its functional
contract: zero iff equal) against the attached MAC, and only then decrypt the
payload; a mismatch returns SSH_ERROR before any call to the payload stream
cipher, with nothing written to the output. -/
def chacha20_poly1305_aead_decrypt (stream : List Nat → List Nat → Nat → Nat)
    (poly : List Nat → List Nat → List Nat)
    (st : ChaChaPolyState) (packet : List Nat) (size : Nat) (seq : Nat) : AeadDecResult :=
  let s := chacha20_poly1305_packet_setup stream st seq false
  if chachapoly_computed_tag stream poly st packet size seq ≠ chachapoly_recv_mac packet size then
    ⟨SSH_ERROR, none, s.1⟩
  else
    let pl := chacha20_update stream s.1.main_ctx ((packet.drop 4).take size)
    ⟨SSH_OK, some pl.1, ⟨pl.2, s.1.header_ctx, s.1.poly_ctx⟩⟩

/-! ## OpenSSH container codec (src/pki_container_openssh.c)

The general-purpose buffer pack/unpack helpers (`ssh_buffer_unpack` formats
`P`, `s`, `S`, `d`, `ssh_buffer_get_ssh_string`, `ssh_buffer_get_u8`) are
repository code outside src/, specified at the interface boundary; they are
modelled below from the spec's wire-format description.  Armor stripping and
base64 are handled before these bytes; base64 decoding is an external
collaborator, so the codec is embedded from the decoded binary container on. -/

/-- Modelled from the spec: raw read of `n` bytes (`ssh_buffer_unpack` format
`P`), part of the external buffer helper contract. -/
def readBytes (n : Nat) (l : List Nat) : Option (List Nat × List Nat) :=
  if n ≤ l.length then some (l.take n, l.drop n) else none

/-- Modelled from the spec: big-endian uint32 read (`ssh_buffer_unpack`
format `d`), part of the external buffer helper contract. -/
def readU32 : List Nat → Option (Nat × List Nat)
  | b0 :: b1 :: b2 :: b3 :: r => some (((b0 * 256 + b1) * 256 + b2) * 256 + b3, r)
  | _ => none

/-- Modelled from the spec: uint32-length-prefixed byte string read
(`ssh_buffer_unpack` formats `s` and `S`), part of the external buffer helper
contract. -/
def readString (l : List Nat) : Option (List Nat × List Nat) :=
  match readU32 l with
  | none => none
  | some nr => readBytes nr.1 nr.2

/-- Modelled from the spec: the `"Sd"` unpack of the bcrypt kdf options —
salt string followed by uint32 rounds (trailing bytes are not rejected). -/
def unpackSd (l : List Nat) : Option (List Nat × Nat) :=
  match readString l with
  | none => none
  | some sr =>
    match readU32 sr.2 with
    | none => none
    | some nr => some (sr.1, nr.1)

/-- Modelled from the spec: `ssh_buffer_get_ssh_string` — reads a length-
prefixed string, returning `none` and leaving the remaining bytes in the
buffer when the declared length exceeds what is available (the 4 length bytes,
once readable, stay consumed). -/
def get_ssh_string (l : List Nat) : Option (List Nat) × List Nat :=
  match readU32 l with
  | none => (none, l)
  | some nr => if nr.1 ≤ nr.2.length then (some (nr.2.take nr.1), nr.2.drop nr.1) else (none, nr.2)

/-- uint32-length-prefixed serialization of a byte string (buffer pack
`s`/`S`, and the `dP` pair used for the private section). -/
def lenStr (x : List Nat) : List Nat := be32 x.length ++ x

/-- The padding validation loop of `ssh_pki_openssh_import`: every remaining
byte must equal the running index starting at 1. -/
def padding_ok : List Nat → Nat → Bool
  | [], _ => true
  | b :: r, i => if b = i then padding_ok r (i + 1) else false

/-- The padding the export path appends: `start, start+1, ...`, `n` bytes. -/
def padSeq (start n : Nat) : List Nat := (List.range n).map (fun i => start + i)

/-- One entry of `ssh_ciphertab` as the codec consumes it: protocol name,
block size in bytes, key size in bits. -/
structure CipherEntry where
  name : List Nat
  blocksize : Nat
  keysize : Nat
deriving DecidableEq

/-- The cipher registry `ssh_ciphertab` (src/libmbedcrypto.c), restricted to
the entries of the default build configuration (the optional
`blowfish-cbc` and insecure `none` entries are compiled out; the terminating
NULL sentinel is the end of the list). -/
def ssh_ciphertab : List CipherEntry :=
  [⟨ascii "aes128-ctr", 16, 128⟩,
   ⟨ascii "aes192-ctr", 16, 192⟩,
   ⟨ascii "aes256-ctr", 16, 256⟩,
   ⟨ascii "aes128-cbc", 16, 128⟩,
   ⟨ascii "aes192-cbc", 16, 192⟩,
   ⟨ascii "aes256-cbc", 16, 256⟩,
   ⟨ascii "aes128-gcm@openssh.com", 16, 128⟩,
   ⟨ascii "aes256-gcm@openssh.com", 16, 256⟩,
   ⟨ascii "3des-cbc", 8, 192⟩,
   ⟨ascii "chacha20-poly1305@openssh.com", 8, 512⟩]

/-- The auth-callback writes a NUL-terminated passphrase into the caller's
128-byte buffer (which starts zero-filled). -/
def fill_passbuf (w : List Nat) : List Nat :=
  w.take 128 ++ List.replicate (128 - (w.take 128).length) 0

/-- Result of `pki_private_key_decrypt`, with the observable effects the
claims talk about: whether the kdf options were unpacked, whether the auth
callback was invoked, whether `bcrypt_pbkdf` ran, and the final contents of
the local 128-byte `passphrase_buffer`. -/
structure DecryptResult where
  rc : Int
  blob : List Nat
  kdfUnpacked : Bool
  authCalled : Bool
  kdfRun : Bool
  passbuf : List Nat
deriving DecidableEq

/-- `pki_private_key_decrypt`: check order and effects exactly as in the
source — `"none"` short-circuit, cipher table lookup, kdf name check, blob
length multiple-of-blocksize check, kdf options unpack, key-material size
check, passphrase resolution (direct or callback), `bcrypt_pbkdf`
(parameter `bcrypt`: passphrase → salt → rounds → length → key material),
in-place decryption (parameter `dec`: cipher entry → key → IV → data →
plaintext).  `explicit_bzero(passphrase_buffer, ...)` runs only on the path
where `bcrypt_pbkdf` succeeded. -/
def pki_private_key_decrypt
    (bcrypt : List Nat → List Nat → Nat → Nat → Option (List Nat))
    (dec : CipherEntry → List Nat → List Nat → List Nat → List Nat)
    (blob : List Nat) (pass : Option (List Nat))
    (cn kn ko : List Nat) (auth : Option (Int × List Nat)) : DecryptResult :=
  let pb0 := List.replicate 128 0
  if cstr cn = ascii "none" then ⟨SSH_OK, blob, false, false, false, pb0⟩
  else
    match ssh_ciphertab.find? (fun e => decide (cstr cn = e.name)) with
    | none => ⟨SSH_ERROR, blob, false, false, false, pb0⟩
    | some cipher =>
      if cstr kn ≠ ascii "bcrypt" then ⟨SSH_ERROR, blob, false, false, false, pb0⟩
      else if blob.length % cipher.blocksize ≠ 0 then ⟨SSH_ERROR, blob, false, false, false, pb0⟩
      else
        match unpackSd ko with
        | none => ⟨SSH_ERROR, blob, true, false, false, pb0⟩
        | some sr =>
          let kml := cipher.keysize / 8 + cipher.blocksize
          if 128 < kml then ⟨SSH_ERROR, blob, true, false, false, pb0⟩
          else
            match pass with
            | some p =>
              match bcrypt (cstr p) sr.1 sr.2 kml with
              | none => ⟨SSH_ERROR, blob, true, false, true, pb0⟩
              | some km =>
                ⟨SSH_OK,
                 dec cipher (km.take (cipher.keysize / 8))
                   ((km.drop (cipher.keysize / 8)).take cipher.blocksize) blob,
                 true, false, true, pb0⟩
            | none =>
              match auth with
              | none => ⟨SSH_ERROR, blob, true, false, false, pb0⟩
              | some a =>
                let pb1 := fill_passbuf a.2
                if a.1 ≠ SSH_OK then ⟨SSH_ERROR, blob, true, true, false, pb1⟩
                else
                  match bcrypt (cstr pb1) sr.1 sr.2 kml with
                  | none => ⟨SSH_ERROR, blob, true, true, true, pb1⟩
                  | some km =>
                    ⟨SSH_OK,
                     dec cipher (km.take (cipher.keysize / 8))
                       ((km.drop (cipher.keysize / 8)).take cipher.blocksize) blob,
                     true, true, true, pb0⟩

/-- Result of `pki_private_key_encrypt`: status, the (possibly encrypted)
private-section buffer, and the final contents of the local
`passphrase_buffer`. -/
structure EncryptResult where
  rc : Int
  buf : List Nat
  passbuf : List Nat
deriving DecidableEq

/-- `pki_private_key_encrypt`, mirroring the decrypt path: `"none"`
short-circuit, table lookup, kdf check, key-material size check, passphrase
resolution, `bcrypt_pbkdf`, in-place encryption (parameter `enc`); the
passphrase buffer is zeroed only after a successful encryption. -/
def pki_private_key_encrypt
    (bcrypt : List Nat → List Nat → Nat → Nat → Option (List Nat))
    (enc : CipherEntry → List Nat → List Nat → List Nat → List Nat)
    (buf : List Nat) (pass : Option (List Nat))
    (cn kn : List Nat) (auth : Option (Int × List Nat))
    (rounds : Nat) (salt : List Nat) : EncryptResult :=
  let pb0 := List.replicate 128 0
  if cstr cn = ascii "none" then ⟨SSH_OK, buf, pb0⟩
  else
    match ssh_ciphertab.find? (fun e => decide (cstr cn = e.name)) with
    | none => ⟨SSH_ERROR, buf, pb0⟩
    | some cipher =>
      if cstr kn ≠ ascii "bcrypt" then ⟨SSH_ERROR, buf, pb0⟩
      else
        let kml := cipher.keysize / 8 + cipher.blocksize
        if 128 < kml then ⟨SSH_ERROR, buf, pb0⟩
        else
          match pass with
          | some p =>
            match bcrypt (cstr p) salt rounds kml with
            | none => ⟨SSH_ERROR, buf, pb0⟩
            | some km =>
              ⟨SSH_OK,
               enc cipher (km.take (cipher.keysize / 8))
                 ((km.drop (cipher.keysize / 8)).take cipher.blocksize) buf,
               pb0⟩
          | none =>
            match auth with
            | none => ⟨SSH_ERROR, buf, pb0⟩
            | some a =>
              let pb1 := fill_passbuf a.2
              if a.1 ≠ SSH_OK then ⟨SSH_ERROR, buf, pb1⟩
              else
                match bcrypt (cstr pb1) salt rounds kml with
                | none => ⟨SSH_ERROR, buf, pb1⟩
                | some km =>
                  ⟨SSH_OK,
                   enc cipher (km.take (cipher.keysize / 8))
                     ((km.drop (cipher.keysize / 8)).take cipher.blocksize) buf,
                   pb0⟩

/-- The header fields of the decoded container, as unpacked by
`ssh_buffer_unpack(buffer, "PssSdSS", ...)`. -/
structure OpensshHeader where
  magic : List Nat
  ciphername : List Nat
  kdfname : List Nat
  kdfoptions : List Nat
  nkeys : Nat
  pubkey0 : List Nat
  privkeys : List Nat
deriving DecidableEq

/-- The `"PssSdSS"` unpack of the decoded container: 15 raw magic bytes
(strlen("openssh-key-v1") + 1), cipher name, kdf name, kdf options, key
count, public-key blob, private-section string.  Trailing bytes are not
rejected. -/
def parseHeader (l : List Nat) : Option OpensshHeader :=
  (readBytes 15 l).bind (fun m =>
  (readString m.2).bind (fun a =>
  (readString a.2).bind (fun b =>
  (readString b.2).bind (fun c =>
  (readU32 c.2).bind (fun d =>
  (readString d.2).bind (fun e =>
  (readString e.2).map (fun f =>
  ⟨m.1, a.1, b.1, c.1, d.1, e.1, f.1⟩)))))))

/-- Result of the import: the key, if any, and whether
`pki_private_key_decrypt` was ever invoked. -/
structure ImportResult (K : Type) where
  key : Option K
  decryptCalled : Bool
deriving DecidableEq

/-- `ssh_pki_openssh_import` from the decoded binary container on (armor
stripping and base64 decoding happen before these bytes; base64 is an
external collaborator).  `import_pubkey` stands for the external
`ssh_pki_import_pubkey_blob`; `import_privkey_blob` stands for
`pki_openssh_import_privkey_blob`'s external typed-key parsing, returning the
key and the bytes it leaves in the buffer.  The checks appear in source
order: magic, key count, public-only short-circuit, private-section
decryption, duplicated checkint, typed key blob, comment, padding. -/
def ssh_pki_openssh_import (K : Type)
    (bcrypt : List Nat → List Nat → Nat → Nat → Option (List Nat))
    (dec : CipherEntry → List Nat → List Nat → List Nat → List Nat)
    (import_pubkey : List Nat → Option K)
    (import_privkey_blob : List Nat → Option (K × List Nat))
    (decoded : List Nat) (pass : Option (List Nat))
    (auth : Option (Int × List Nat)) (priv : Bool) : ImportResult K :=
  match parseHeader decoded with
  | none => ⟨none, false⟩
  | some h =>
    if h.magic.take 14 ≠ ascii "openssh-key-v1" then ⟨none, false⟩
    else if h.nkeys ≠ 1 then ⟨none, false⟩
    else if priv = false then ⟨import_pubkey h.pubkey0, false⟩
    else
      let d := pki_private_key_decrypt bcrypt dec h.privkeys pass h.ciphername h.kdfname h.kdfoptions auth
      if d.rc = SSH_ERROR then ⟨none, true⟩
      else
        match readU32 d.blob with
        | none => ⟨none, true⟩
        | some p1 =>
          match readU32 p1.2 with
          | none => ⟨none, true⟩
          | some p2 =>
            if p1.1 ≠ p2.1 then ⟨none, true⟩
            else
              match import_privkey_blob p2.2 with
              | none => ⟨none, true⟩
              | some kr =>
                let g := get_ssh_string kr.2
                if padding_ok g.2 1 then ⟨some kr.1, true⟩ else ⟨none, true⟩

/-- The serialized binary container (`ssh_buffer_pack(buffer, "PssSdSdP",
...)`): magic + NUL, cipher name, kdf name, kdf options, key count, public
blob, private section. -/
def mkContainer (cn kn ko pk ps : List Nat) (n : Nat) : List Nat :=
  (ascii "openssh-key-v1" ++ [0]) ++
    (lenStr cn ++ (lenStr kn ++ (lenStr ko ++ (be32 n ++ (lenStr pk ++ lenStr ps)))))

/-- Result of the export: the binary container (before base64/armoring, which
are external) and the plaintext private section as built before any
encryption. -/
structure ExportResult where
  container : List Nat
  plainPriv : List Nat
deriving DecidableEq

/-- `ssh_pki_openssh_privkey_export` from the structured data on: `pubkey_s`
and `blob` stand for the external public/private key-blob serializers, `rnd`
for the random checkint and `salt` for the random 16-byte salt.  The private
section is `checkint, checkint, key blob, empty comment` padded with
`1,2,3,...` to a 16-byte boundary regardless of encryption; with a passphrase
or callback present it is encrypted with aes128-cbc/bcrypt at 16 rounds;
the container always declares one key. -/
def ssh_pki_openssh_privkey_export
    (bcrypt : List Nat → List Nat → Nat → Nat → Option (List Nat))
    (enc : CipherEntry → List Nat → List Nat → List Nat → List Nat)
    (pubkey_s blob : List Nat) (rnd : Nat) (salt : List Nat)
    (pass : Option (List Nat)) (auth : Option (Int × List Nat)) : Option ExportResult :=
  let to_encrypt := pass.isSome || auth.isSome
  let unpadded := be32 rnd ++ (be32 rnd ++ (blob ++ lenStr []))
  let plain := unpadded ++ padSeq 1 ((16 - unpadded.length % 16) % 16)
  if to_encrypt then
    let kdf_options := lenStr salt ++ be32 16
    let er := pki_private_key_encrypt bcrypt enc plain pass (ascii "aes128-cbc") (ascii "bcrypt") auth 16 salt
    if er.rc = SSH_ERROR then none
    else some ⟨mkContainer (ascii "aes128-cbc") (ascii "bcrypt") kdf_options pubkey_s er.buf 1, plain⟩
  else some ⟨mkContainer (ascii "none") (ascii "none") [] pubkey_s plain 1, plain⟩

/-! ## Helper lemmas -/

theorem leToNat_lt : ∀ l : List Nat, (∀ b ∈ l, b < 256) → leToNat l < 256 ^ l.length := by
  intro l
  induction l with
  | nil => intro _; simp [leToNat]
  | cons b r ih =>
    intro h
    have hb : b < 256 := h b (List.mem_cons_self b r)
    have hr : leToNat r < 256 ^ r.length := ih (fun x hx => h x (List.mem_cons_of_mem b hx))
    simp only [leToNat, List.length_cons, pow_succ]
    calc b + 256 * leToNat r < 256 + 256 * leToNat r := by omega
    _ = 256 * (leToNat r + 1) := by ring
    _ ≤ 256 * 256 ^ r.length := by
          exact Nat.mul_le_mul_left 256 hr
    _ = 256 ^ r.length * 256 := by ring

theorem leToNat_inc_le : ∀ l : List Nat, (∀ b ∈ l, b < 256) →
    leToNat (inc_le l) = (leToNat l + 1) % 256 ^ l.length := by
  intro l
  induction l with
  | nil => intro _; simp [inc_le, leToNat]
  | cons b r ih =>
    intro h
    have hb : b < 256 := h b (List.mem_cons_self b r)
    have hr : leToNat r < 256 ^ r.length := leToNat_lt r (fun x hx => h x (List.mem_cons_of_mem b hx))
    by_cases hlt : b + 1 < 256
    · simp only [inc_le, if_pos hlt, leToNat, List.length_cons, pow_succ]
      rw [Nat.mod_eq_of_lt]
      · omega
      · calc b + 256 * leToNat r + 1 < 256 * (leToNat r + 1) := by omega
        _ ≤ 256 * 256 ^ r.length := Nat.mul_le_mul_left 256 hr
        _ = 256 ^ r.length * 256 := by ring
    · have hb255 : b = 255 := by omega
      subst hb255
      simp only [inc_le, if_neg hlt, leToNat, List.length_cons]
      rw [ih (fun x hx => h x (List.mem_cons_of_mem 255 hx))]
      have h1 : 255 + 256 * leToNat r + 1 = 256 * (leToNat r + 1) := by ring
      have h2 : (256 : Nat) ^ (r.length + 1) = 256 * 256 ^ r.length := by
        rw [pow_succ]; ring
      rw [h1, h2, Nat.mul_mod_mul_left]
      omega

theorem beToNat_be_inc (l : List Nat) (h : ∀ b ∈ l, b < 256) :
    beToNat (be_inc l) = (beToNat l + 1) % 256 ^ l.length := by
  unfold beToNat be_inc
  rw [List.reverse_reverse]
  rw [leToNat_inc_le l.reverse (fun x hx => h x (List.mem_reverse.mp hx))]
  rw [List.length_reverse]

theorem take_append_length (a b : List Nat) (n : Nat) (h : a.length = n) :
    (a ++ b).take n = a := by
  subst h; exact List.take_left a b

theorem drop_append_length (a b : List Nat) (n : Nat) (h : a.length = n) :
    (a ++ b).drop n = b := by
  subst h; exact List.drop_left a b

theorem gcm_iv_inc_take (iv : List Nat) (h : iv.length = 12) :
    (gcm_iv_inc iv).take 4 = iv.take 4 := by
  unfold gcm_iv_inc
  exact take_append_length _ _ 4 (by rw [List.length_take]; omega)

theorem gcm_iv_inc_drop (iv : List Nat) (h : iv.length = 12) :
    (gcm_iv_inc iv).drop 4 = uint64_inc (iv.drop 4) := by
  unfold gcm_iv_inc
  exact drop_append_length _ _ 4 (by rw [List.length_take]; omega)

theorem beToNat_uint64_inc_drop (iv : List Nat) (h : iv.length = 12)
    (hb : ∀ b ∈ iv, b < 256) :
    beToNat (uint64_inc (iv.drop 4)) = (beToNat (iv.drop 4) + 1) % 18446744073709551616 := by
  unfold uint64_inc
  rw [beToNat_be_inc (iv.drop 4) (fun x hx => hb x (List.mem_of_mem_drop hx))]
  rw [List.length_drop, h]
  norm_num

theorem readBytes_append (l1 l2 : List Nat) : readBytes l1.length (l1 ++ l2) = some (l1, l2) := by
  unfold readBytes
  rw [if_pos (by simp)]
  rw [List.take_left, List.drop_left]

theorem readU32_be32 (n : Nat) (r : List Nat) (h : n < 4294967296) :
    readU32 (be32 n ++ r) = some (n, r) := by
  simp only [be32, List.cons_append, List.nil_append, readU32]
  congr 1
  congr 1
  omega

theorem readString_lenStr (x r : List Nat) (h : x.length < 4294967296) :
    readString (lenStr x ++ r) = some (x, r) := by
  unfold readString lenStr
  rw [List.append_assoc, readU32_be32 x.length (x ++ r) h]
  exact readBytes_append x r

theorem parseHeader_mkContainer (cn kn ko pk ps : List Nat) (n : Nat)
    (hcn : cn.length < 4294967296) (hkn : kn.length < 4294967296)
    (hko : ko.length < 4294967296) (hpk : pk.length < 4294967296)
    (hps : ps.length < 4294967296) (hn : n < 4294967296) :
    parseHeader (mkContainer cn kn ko pk ps n) =
      some ⟨ascii "openssh-key-v1" ++ [0], cn, kn, ko, n, pk, ps⟩ := by
  unfold parseHeader mkContainer
  rw [show (15 : Nat) = (ascii "openssh-key-v1" ++ [0]).length from by rfl]
  rw [readBytes_append]
  simp only [Option.some_bind]
  rw [readString_lenStr cn _ hcn]
  simp only [Option.some_bind]
  rw [readString_lenStr kn _ hkn]
  simp only [Option.some_bind]
  rw [readString_lenStr ko _ hko]
  simp only [Option.some_bind]
  rw [readU32_be32 n _ hn]
  simp only [Option.some_bind]
  rw [readString_lenStr pk _ hpk]
  simp only [Option.some_bind]
  rw [(List.append_nil (lenStr ps)).symm, readString_lenStr ps [] hps]
  rfl

/-! ## Claim theorems: packet cipher engine -/

/-- C1: For every AEAD packet whose authentication tag does not verify,
aead_decrypt returns an authentication failure (SSH_ERROR) and writes no
plaintext bytes to the output buffer: `chacha20_poly1305_aead_decrypt`
compares the recomputed Poly1305 tag against the received tag and returns
before any call to the payload stream cipher when they differ, and
`cipher_decrypt_gcm` only reports success (and thus releases output) when the
primitive's combined decrypt-and-verify succeeds. -/
theorem c1_aead_decrypt_auth_failure :
    (∀ (stream : List Nat → List Nat → Nat → Nat) (poly : List Nat → List Nat → List Nat)
       (st : ChaChaPolyState) (packet : List Nat) (size seq : Nat),
      chachapoly_computed_tag stream poly st packet size seq ≠ chachapoly_recv_mac packet size →
      (chacha20_poly1305_aead_decrypt stream poly st packet size seq).rc = SSH_ERROR ∧
      (chacha20_poly1305_aead_decrypt stream poly st packet size seq).out = none)
    ∧
    (∀ (prim : List Nat → List Nat → List Nat → List Nat → Option (List Nat))
       (c : GcmCipher) (packet : List Nat) (size : Nat),
      prim c.last_iv (packet.take 4) ((packet.drop (4 + size)).take 16)
          ((packet.drop 4).take size) = none →
      cipher_decrypt_gcm prim c packet size = ⟨SSH_ERROR, none, c⟩) := by
  constructor
  · intro stream poly st packet size seq h
    unfold chacha20_poly1305_aead_decrypt
    rw [if_pos h]
    exact ⟨rfl, rfl⟩
  · intro prim c packet size h
    unfold cipher_decrypt_gcm
    rw [h]

/-- Witness for C1 at a concrete mismatching packet: the recomputed tag is 16
one-bytes while the attached MAC is 16 zero-bytes, and the GCM primitive
reports a verification failure. -/
theorem c1_witness :
    ((chacha20_poly1305_aead_decrypt (fun _ _ _ => 0) (fun _ _ => List.replicate 16 1)
        ⟨⟨[], [], 0⟩, ⟨[], [], 0⟩, ⟨[], []⟩⟩ (List.replicate 20 0) 0 0).rc = SSH_ERROR ∧
     (chacha20_poly1305_aead_decrypt (fun _ _ _ => 0) (fun _ _ => List.replicate 16 1)
        ⟨⟨[], [], 0⟩, ⟨[], [], 0⟩, ⟨[], []⟩⟩ (List.replicate 20 0) 0 0).out = none)
    ∧ cipher_decrypt_gcm (fun _ _ _ _ => none) ⟨List.replicate 12 0⟩ [] 0 =
        ⟨SSH_ERROR, none, ⟨List.replicate 12 0⟩⟩ :=
  ⟨c1_aead_decrypt_auth_failure.1 (fun _ _ _ => 0) (fun _ _ => List.replicate 16 1)
      ⟨⟨[], [], 0⟩, ⟨[], [], 0⟩, ⟨[], []⟩⟩ (List.replicate 20 0) 0 0 (by decide),
   c1_aead_decrypt_auth_failure.2 (fun _ _ _ _ => none) ⟨List.replicate 12 0⟩ [] 0 rfl⟩

/-- C2 counterexample: at the IV whose trailing 8 bytes are
00 00 00 00 ff ff ff ff, the source's update (a 64-bit big-endian increment of
bytes 4..12, `uint64_inc(last_iv + 4)`) carries into byte 7 and zeroes bytes
8..12, which matches neither reading of the claim's "incrementing exactly its
lower 32 bits, i.e. bytes 4..8": incrementing only bytes 4..8 leaves the
trailing ff bytes untouched, and incrementing the literal lower 32 bits
(bytes 8..12) wraps them to zero without touching byte 7. -/
theorem c2_counterexample :
    (cipher_encrypt_gcm (fun _ _ _ => some ([], []))
        ⟨[0, 0, 0, 0, 0, 0, 0, 0, 255, 255, 255, 255]⟩ [9, 9, 9, 9]).cipher.last_iv =
      [0, 0, 0, 0, 0, 0, 0, 1, 0, 0, 0, 0]
    ∧ spec_c2_iv_update [0, 0, 0, 0, 0, 0, 0, 0, 255, 255, 255, 255] =
      [0, 0, 0, 0, 0, 0, 0, 1, 255, 255, 255, 255]
    ∧ spec_c2_iv_update_low [0, 0, 0, 0, 0, 0, 0, 0, 255, 255, 255, 255] =
      [0, 0, 0, 0, 0, 0, 0, 0, 0, 0, 0, 0]
    ∧ (cipher_encrypt_gcm (fun _ _ _ => some ([], []))
        ⟨[0, 0, 0, 0, 0, 0, 0, 0, 255, 255, 255, 255]⟩ [9, 9, 9, 9]).cipher.last_iv ≠
      spec_c2_iv_update [0, 0, 0, 0, 0, 0, 0, 0, 255, 255, 255, 255]
    ∧ (cipher_encrypt_gcm (fun _ _ _ => some ([], []))
        ⟨[0, 0, 0, 0, 0, 0, 0, 0, 255, 255, 255, 255]⟩ [9, 9, 9, 9]).cipher.last_iv ≠
      spec_c2_iv_update_low [0, 0, 0, 0, 0, 0, 0, 0, 255, 255, 255, 255] := by
  decide

/-- C2 (amended): for every GCM-family packet successfully processed (encrypt
or decrypt), the session's stored 12-byte nonce last_iv is updated after the
packet by incrementing its trailing 8 bytes (bytes 4..12) as a single 64-bit
big-endian counter — the leading 4 bytes are unchanged and the 64-bit value
increases by one modulo 2^64 — and each direction's session increments its
own nonce independently (each operation reads and updates only the session it
is given). -/
theorem c2_gcm_iv_increment :
    (∀ (prim : List Nat → List Nat → List Nat → Option (List Nat × List Nat))
       (c : GcmCipher) (input ct tag : List Nat),
      c.last_iv.length = 12 → (∀ b ∈ c.last_iv, b < 256) →
      prim c.last_iv (input.take 4) (input.drop 4) = some (ct, tag) →
      (cipher_encrypt_gcm prim c input).cipher.last_iv.take 4 = c.last_iv.take 4 ∧
      beToNat ((cipher_encrypt_gcm prim c input).cipher.last_iv.drop 4) =
        (beToNat (c.last_iv.drop 4) + 1) % 18446744073709551616)
    ∧
    (∀ (prim : List Nat → List Nat → List Nat → List Nat → Option (List Nat))
       (c : GcmCipher) (packet : List Nat) (size : Nat) (pt : List Nat),
      c.last_iv.length = 12 → (∀ b ∈ c.last_iv, b < 256) →
      prim c.last_iv (packet.take 4) ((packet.drop (4 + size)).take 16)
          ((packet.drop 4).take size) = some pt →
      (cipher_decrypt_gcm prim c packet size).cipher.last_iv.take 4 = c.last_iv.take 4 ∧
      beToNat ((cipher_decrypt_gcm prim c packet size).cipher.last_iv.drop 4) =
        (beToNat (c.last_iv.drop 4) + 1) % 18446744073709551616) := by
  constructor
  · intro prim c input ct tag hlen hb hp
    unfold cipher_encrypt_gcm
    rw [hp]
    refine ⟨gcm_iv_inc_take c.last_iv hlen, ?_⟩
    show beToNat ((gcm_iv_inc c.last_iv).drop 4) =
      (beToNat (c.last_iv.drop 4) + 1) % 18446744073709551616
    rw [gcm_iv_inc_drop c.last_iv hlen, beToNat_uint64_inc_drop c.last_iv hlen hb]
  · intro prim c packet size pt hlen hb hp
    unfold cipher_decrypt_gcm
    rw [hp]
    refine ⟨gcm_iv_inc_take c.last_iv hlen, ?_⟩
    show beToNat ((gcm_iv_inc c.last_iv).drop 4) =
      (beToNat (c.last_iv.drop 4) + 1) % 18446744073709551616
    rw [gcm_iv_inc_drop c.last_iv hlen, beToNat_uint64_inc_drop c.last_iv hlen hb]

/-- Witness for C2 at a concrete all-zero IV on both directions. -/
theorem c2_witness :
    ((cipher_encrypt_gcm (fun _ _ _ => some ([], [])) ⟨List.replicate 12 0⟩ []).cipher.last_iv.take 4 =
        (GcmCipher.mk (List.replicate 12 0)).last_iv.take 4 ∧
     beToNat ((cipher_encrypt_gcm (fun _ _ _ => some ([], [])) ⟨List.replicate 12 0⟩ []).cipher.last_iv.drop 4) =
        (beToNat ((GcmCipher.mk (List.replicate 12 0)).last_iv.drop 4) + 1) % 18446744073709551616)
    ∧
    ((cipher_decrypt_gcm (fun _ _ _ _ => some []) ⟨List.replicate 12 0⟩ [] 0).cipher.last_iv.take 4 =
        (GcmCipher.mk (List.replicate 12 0)).last_iv.take 4 ∧
     beToNat ((cipher_decrypt_gcm (fun _ _ _ _ => some []) ⟨List.replicate 12 0⟩ [] 0).cipher.last_iv.drop 4) =
        (beToNat ((GcmCipher.mk (List.replicate 12 0)).last_iv.drop 4) + 1) % 18446744073709551616) :=
  ⟨c2_gcm_iv_increment.1 (fun _ _ _ => some ([], [])) ⟨List.replicate 12 0⟩ [] [] []
      (by decide) (by decide) rfl,
   c2_gcm_iv_increment.2 (fun _ _ _ _ => some []) ⟨List.replicate 12 0⟩ [] 0 []
      (by decide) (by decide) rfl⟩

/-- C3 counterexample: at a concrete packet, the operations the source
performs, with the nonce setup filtered out, run discard-block first and
header-encrypt second — not the claimed header-encrypt-then-discard-block
order. -/
theorem c3_counterexample :
    ((chacha20_poly1305_aead_encrypt (fun _ _ _ => 0) (fun _ _ => [])
        ⟨⟨[], [], 0⟩, ⟨[], [], 0⟩, ⟨[], []⟩⟩ [0, 0, 0, 0, 7] 0).trace.filter
        (fun e => decide (e ≠ Event.set_iv))) =
      [Event.main_discard, Event.header_crypt_len, Event.main_crypt_payload, Event.poly_mac]
    ∧ ((chacha20_poly1305_aead_encrypt (fun _ _ _ => 0) (fun _ _ => [])
        ⟨⟨[], [], 0⟩, ⟨[], [], 0⟩, ⟨[], []⟩⟩ [0, 0, 0, 0, 7] 0).trace.filter
        (fun e => decide (e ≠ Event.set_iv))) ≠ spec_c3_claimed_order := by
  decide

/-- C3 (amended): for every packet encrypted with the combined
ChaCha20-Poly1305 construction, the operations are performed in this order:
first the per-packet nonce is set from the sequence number, then the main
instance is run one full block forward with its output discarded (deriving
the one-time Poly1305 key and landing the counter at block 1), then the
4-byte length field is encrypted with the header instance, then the payload
is encrypted with the main instance, and then the Poly1305 tag is computed
over the entire output packet (encrypted length plus encrypted payload). -/
theorem c3_chachapoly_encrypt_order
    (stream : List Nat → List Nat → Nat → Nat) (poly : List Nat → List Nat → List Nat)
    (st : ChaChaPolyState) (input : List Nat) (seq : Nat) :
    (chacha20_poly1305_aead_encrypt stream poly st input seq).trace =
      [Event.set_iv, Event.main_discard, Event.header_crypt_len,
       Event.main_crypt_payload, Event.poly_mac]
    ∧ (chacha20_poly1305_aead_encrypt stream poly st input seq).out =
      (chacha20_update stream ⟨st.header_ctx.key, chacha_nonce seq, 0⟩ (input.take 4)).1 ++
      (chacha20_update stream ⟨st.main_ctx.key, chacha_nonce seq, 64⟩ (input.drop 4)).1
    ∧ (chacha20_poly1305_aead_encrypt stream poly st input seq).tag =
      poly ((chacha20_update stream ⟨st.main_ctx.key, chacha_nonce seq, 0⟩ zero_block).1.take 32)
        ((chacha20_poly1305_aead_encrypt stream poly st input seq).out) :=
  ⟨rfl, rfl, rfl⟩

/-! ## Claim theorems: container codec -/

/-- C9: for every input blob and arguments, when the cipher name is `"none"`,
`pki_private_key_decrypt` returns SSH_OK immediately and leaves the blob
bytes unchanged, without examining the kdf name, kdf options, passphrase, or
auth callback — the result is a constant record independent of all of them,
so an unsupported or malformed kdf name is accepted in that case. -/
theorem c9_cipher_none_immediate_ok
    (bcrypt : List Nat → List Nat → Nat → Nat → Option (List Nat))
    (dec : CipherEntry → List Nat → List Nat → List Nat → List Nat)
    (blob : List Nat) (pass : Option (List Nat)) (cn kn ko : List Nat)
    (auth : Option (Int × List Nat)) (h : cstr cn = ascii "none") :
    pki_private_key_decrypt bcrypt dec blob pass cn kn ko auth =
      ⟨SSH_OK, blob, false, false, false, List.replicate 128 0⟩ := by
  unfold pki_private_key_decrypt
  rw [if_pos h]

/-- Witness for C9: cipher `"none"` with a malformed kdf name and failing
collaborators still returns SSH_OK with the blob untouched. -/
theorem c9_witness :
    pki_private_key_decrypt (fun _ _ _ _ => none) (fun _ _ _ d => d) [1, 2, 3] (some [7])
      (ascii "none") [9] [9, 9] (some (SSH_ERROR, [5])) =
      ⟨SSH_OK, [1, 2, 3], false, false, false, List.replicate 128 0⟩ :=
  c9_cipher_none_immediate_ok (fun _ _ _ _ => none) (fun _ _ _ d => d) [1, 2, 3] (some [7])
    (ascii "none") [9] [9, 9] (some (SSH_ERROR, [5])) (by decide)

/-- C10: for every encrypted private section whose byte length is not a
multiple of the selected cipher's block size, `pki_private_key_decrypt`
returns SSH_ERROR before unpacking the kdf options, resolving any passphrase,
or running the key-derivation function, and the blob is left unmodified. -/
theorem c10_blocksize_check_early_error
    (bcrypt : List Nat → List Nat → Nat → Nat → Option (List Nat))
    (dec : CipherEntry → List Nat → List Nat → List Nat → List Nat)
    (blob : List Nat) (pass : Option (List Nat)) (cn kn ko : List Nat)
    (auth : Option (Int × List Nat)) (entry : CipherEntry)
    (h0 : cstr cn ≠ ascii "none")
    (h1 : ssh_ciphertab.find? (fun e => decide (cstr cn = e.name)) = some entry)
    (h2 : blob.length % entry.blocksize ≠ 0) :
    pki_private_key_decrypt bcrypt dec blob pass cn kn ko auth =
      ⟨SSH_ERROR, blob, false, false, false, List.replicate 128 0⟩ := by
  by_cases hk : cstr kn = ascii "bcrypt"
  · simp [pki_private_key_decrypt, h0, h1, hk, h2]
  · simp [pki_private_key_decrypt, h0, h1, hk]

/-- Witness for C10: a one-byte section under aes128-cbc (block size 16). -/
theorem c10_witness :
    pki_private_key_decrypt (fun _ _ _ _ => none) (fun _ _ _ d => d) [0] none
      (ascii "aes128-cbc") (ascii "bcrypt") [] none =
      ⟨SSH_ERROR, [0], false, false, false, List.replicate 128 0⟩ :=
  c10_blocksize_check_early_error (fun _ _ _ _ => none) (fun _ _ _ d => d) [0] none
    (ascii "aes128-cbc") (ascii "bcrypt") [] none ⟨ascii "aes128-cbc", 16, 128⟩
    (by decide) (by decide) (by decide)

/-- C7: the claim (and spec section 5) requires the local passphrase buffer
filled by the auth callback to be zeroed on every exit path of
`pki_private_key_decrypt` and `pki_private_key_encrypt`.  The code violates
this: when the callback supplies the passphrase and `bcrypt_pbkdf` then
fails, both functions return SSH_ERROR without the `explicit_bzero` that only
the success path executes, leaving the passphrase bytes in the buffer.  This
theorem evaluates both functions at such an input. -/
theorem c7_passbuf_not_zeroed_on_kdf_failure :
    ((pki_private_key_decrypt (fun _ _ _ _ => none) (fun _ _ _ d => d) [] none
        (ascii "aes128-cbc") (ascii "bcrypt") ([0, 0, 0, 0] ++ be32 16)
        (some (SSH_OK, ascii "secret"))).rc = SSH_ERROR ∧
     (pki_private_key_decrypt (fun _ _ _ _ => none) (fun _ _ _ d => d) [] none
        (ascii "aes128-cbc") (ascii "bcrypt") ([0, 0, 0, 0] ++ be32 16)
        (some (SSH_OK, ascii "secret"))).passbuf ≠ List.replicate 128 0)
    ∧
    ((pki_private_key_encrypt (fun _ _ _ _ => none) (fun _ _ _ d => d) [] none
        (ascii "aes128-cbc") (ascii "bcrypt") (some (SSH_OK, ascii "secret")) 16 []).rc = SSH_ERROR ∧
     (pki_private_key_encrypt (fun _ _ _ _ => none) (fun _ _ _ d => d) [] none
        (ascii "aes128-cbc") (ascii "bcrypt") (some (SSH_OK, ascii "secret")) 16 []).passbuf ≠
       List.replicate 128 0) := by
  decide

/-- C6: for every container whose header declares a key count different from
1, `ssh_pki_openssh_import` rejects it (no key) and never invokes
`pki_private_key_decrypt` — so no key derivation or decryption of the private
section is attempted. -/
theorem c6_nkeys_rejected_before_decrypt (K : Type)
    (bcrypt : List Nat → List Nat → Nat → Nat → Option (List Nat))
    (dec : CipherEntry → List Nat → List Nat → List Nat → List Nat)
    (ipub : List Nat → Option K) (ipriv : List Nat → Option (K × List Nat))
    (cn kn ko pk ps : List Nat) (n : Nat) (pass : Option (List Nat))
    (auth : Option (Int × List Nat)) (priv : Bool)
    (hcn : cn.length < 4294967296) (hkn : kn.length < 4294967296)
    (hko : ko.length < 4294967296) (hpk : pk.length < 4294967296)
    (hps : ps.length < 4294967296) (hn32 : n < 4294967296) (hn : n ≠ 1) :
    ssh_pki_openssh_import K bcrypt dec ipub ipriv (mkContainer cn kn ko pk ps n) pass auth priv =
      ⟨none, false⟩ := by
  simp +decide [ssh_pki_openssh_import,
    parseHeader_mkContainer cn kn ko pk ps n hcn hkn hko hpk hps hn32, hn]

/-- Witness for C6: a container declaring two keys is rejected without any
decryption attempt. -/
theorem c6_witness :
    ssh_pki_openssh_import Nat (fun _ _ _ _ => none) (fun _ _ _ d => d) (fun _ => none)
      (fun _ => none) (mkContainer (ascii "none") (ascii "none") [] [] [] 2) none none true =
      ⟨none, false⟩ :=
  c6_nkeys_rejected_before_decrypt Nat (fun _ _ _ _ => none) (fun _ _ _ d => d) (fun _ => none)
    (fun _ => none) (ascii "none") (ascii "none") [] [] [] 2 none none true
    (by decide) (by decide) (by decide) (by decide) (by decide) (by decide) (by decide)

/-- C4: for every imported container whose decrypted private section has two
unequal checkint values (which is how a wrong bcrypt passphrase manifests),
`ssh_pki_openssh_import` rejects the container and returns no key, never a
partially decoded key; the result is the same `none` whatever caused the
mismatch, so the error does not distinguish wrong passphrase from
corruption. -/
theorem c4_checkint_mismatch_rejected (K : Type)
    (bcrypt : List Nat → List Nat → Nat → Nat → Option (List Nat))
    (dec : CipherEntry → List Nat → List Nat → List Nat → List Nat)
    (ipub : List Nat → Option K) (ipriv : List Nat → Option (K × List Nat))
    (cn kn ko pk ps : List Nat) (pass : Option (List Nat)) (auth : Option (Int × List Nat))
    (hcn : cn.length < 4294967296) (hkn : kn.length < 4294967296)
    (hko : ko.length < 4294967296) (hpk : pk.length < 4294967296)
    (hps : ps.length < 4294967296)
    (hd : (pki_private_key_decrypt bcrypt dec ps pass cn kn ko auth).rc = SSH_OK)
    (c1 c2 : Nat) (r1 r2 : List Nat)
    (h1 : readU32 (pki_private_key_decrypt bcrypt dec ps pass cn kn ko auth).blob = some (c1, r1))
    (h2 : readU32 r1 = some (c2, r2))
    (hne : c1 ≠ c2) :
    ssh_pki_openssh_import K bcrypt dec ipub ipriv (mkContainer cn kn ko pk ps 1) pass auth true =
      ⟨none, true⟩ := by
  simp +decide [ssh_pki_openssh_import,
    parseHeader_mkContainer cn kn ko pk ps 1 hcn hkn hko hpk hps (by decide),
    hd, h1, h2, hne, SSH_OK, SSH_ERROR]

/-- Witness for C4: an unencrypted container whose checkints are 1 and 2. -/
theorem c4_witness :
    ssh_pki_openssh_import Nat (fun _ _ _ _ => none) (fun _ _ _ d => d) (fun _ => none)
      (fun _ => none) (mkContainer (ascii "none") [] [] [] [0, 0, 0, 1, 0, 0, 0, 2] 1)
      none none true = ⟨none, true⟩ :=
  c4_checkint_mismatch_rejected Nat (fun _ _ _ _ => none) (fun _ _ _ d => d) (fun _ => none)
    (fun _ => none) (ascii "none") [] [] [] [0, 0, 0, 1, 0, 0, 0, 2] none none
    (by decide) (by decide) (by decide) (by decide) (by decide) (by decide)
    1 2 [0, 0, 0, 2] [] (by decide) (by decide) (by decide)

/-- C5: for every imported container whose decrypted private section's
trailing padding bytes are not exactly the strictly increasing sequence
1,2,3,... up to the section length, the import rejects the container and
returns no key, even when the two checkints match and the key blob itself
parsed successfully. -/
theorem c5_padding_invalid_rejected (K : Type)
    (bcrypt : List Nat → List Nat → Nat → Nat → Option (List Nat))
    (dec : CipherEntry → List Nat → List Nat → List Nat → List Nat)
    (ipub : List Nat → Option K) (ipriv : List Nat → Option (K × List Nat))
    (cn kn ko pk ps : List Nat) (pass : Option (List Nat)) (auth : Option (Int × List Nat))
    (hcn : cn.length < 4294967296) (hkn : kn.length < 4294967296)
    (hko : ko.length < 4294967296) (hpk : pk.length < 4294967296)
    (hps : ps.length < 4294967296)
    (hd : (pki_private_key_decrypt bcrypt dec ps pass cn kn ko auth).rc = SSH_OK)
    (c : Nat) (rest : List Nat) (hc : c < 4294967296)
    (hblob : (pki_private_key_decrypt bcrypt dec ps pass cn kn ko auth).blob =
      be32 c ++ (be32 c ++ rest))
    (k : K) (r3 : List Nat) (hk : ipriv rest = some (k, r3))
    (cm : Option (List Nat)) (r4 : List Nat) (hcm : get_ssh_string r3 = (cm, r4))
    (hpad : padding_ok r4 1 = false) :
    ssh_pki_openssh_import K bcrypt dec ipub ipriv (mkContainer cn kn ko pk ps 1) pass auth true =
      ⟨none, true⟩ := by
  simp +decide [ssh_pki_openssh_import,
    parseHeader_mkContainer cn kn ko pk ps 1 hcn hkn hko hpk hps (by decide),
    hd, hblob, readU32_be32 c (be32 c ++ rest) hc, readU32_be32 c rest hc,
    hk, hcm, hpad, SSH_OK, SSH_ERROR]

/-- Witness for C5: matching checkints 7,7, a key blob the parser accepts
consuming nothing, an empty comment, and a single padding byte 5 where 1 is
required. -/
theorem c5_witness :
    ssh_pki_openssh_import Nat (fun _ _ _ _ => none) (fun _ _ _ d => d) (fun _ => none)
      (fun l => some (0, l)) (mkContainer (ascii "none") [] [] []
        [0, 0, 0, 7, 0, 0, 0, 7, 0, 0, 0, 0, 5] 1) none none true = ⟨none, true⟩ :=
  c5_padding_invalid_rejected Nat (fun _ _ _ _ => none) (fun _ _ _ d => d) (fun _ => none)
    (fun l => some (0, l)) (ascii "none") [] [] [] [0, 0, 0, 7, 0, 0, 0, 7, 0, 0, 0, 0, 5]
    none none (by decide) (by decide) (by decide) (by decide) (by decide) (by decide)
    7 [0, 0, 0, 0, 5] (by decide) (by decide) 0 [0, 0, 0, 0, 5] (by decide)
    (some []) [5] (by decide) (by decide)

/-- In-place encryption of the private section never changes its length
(mbedTLS CBC with no padding is length-preserving, hypothesis `henc`); on
error paths the buffer is returned untouched. -/
theorem pki_private_key_encrypt_buf_length
    (bcrypt : List Nat → List Nat → Nat → Nat → Option (List Nat))
    (enc : CipherEntry → List Nat → List Nat → List Nat → List Nat)
    (buf : List Nat) (pass : Option (List Nat)) (cn kn : List Nat)
    (auth : Option (Int × List Nat)) (rounds : Nat) (salt : List Nat)
    (henc : ∀ e k iv d, (enc e k iv d).length = d.length) :
    (pki_private_key_encrypt bcrypt enc buf pass cn kn auth rounds salt).buf.length =
      buf.length := by
  unfold pki_private_key_encrypt
  repeat'
    first
      | (rfl)
      | (simp only [henc])
      | split

/-- C8: for every private key exported by `ssh_pki_openssh_privkey_export`,
the serialized container declares a key count of exactly 1; when no
passphrase and no callback are supplied, both the cipher name and kdf name
fields are `"none"`; and the private section is padded with bytes 1,2,3,...
up to a 16-byte boundary regardless of whether encryption is applied. -/
theorem c8_export_properties
    (bcrypt : List Nat → List Nat → Nat → Nat → Option (List Nat))
    (enc : CipherEntry → List Nat → List Nat → List Nat → List Nat)
    (pubkey_s blob : List Nat) (rnd : Nat) (salt : List Nat)
    (pass : Option (List Nat)) (auth : Option (Int × List Nat)) (r : ExportResult)
    (henc : ∀ e k iv d, (enc e k iv d).length = d.length)
    (hpk : pubkey_s.length < 4294967296)
    (hblob : blob.length + 27 < 4294967296)
    (hsalt : salt.length + 8 < 4294967296)
    (h : ssh_pki_openssh_privkey_export bcrypt enc pubkey_s blob rnd salt pass auth = some r) :
    (∃ hd, parseHeader r.container = some hd ∧ hd.nkeys = 1 ∧
      (pass = none ∧ auth = none → hd.ciphername = ascii "none" ∧ hd.kdfname = ascii "none"))
    ∧ r.plainPriv.length % 16 = 0
    ∧ (∃ k, r.plainPriv = (be32 rnd ++ (be32 rnd ++ (blob ++ lenStr []))) ++ padSeq 1 k) := by
  have hulen : (be32 rnd ++ (be32 rnd ++ (blob ++ lenStr []))).length = blob.length + 12 := by
    simp [be32, lenStr, List.length_append]
  have hplen : ((be32 rnd ++ (be32 rnd ++ (blob ++ lenStr []))) ++
      padSeq 1 ((16 - (be32 rnd ++ (be32 rnd ++ (blob ++ lenStr []))).length % 16) % 16)).length =
      blob.length + 12 + (16 - (blob.length + 12) % 16) % 16 := by
    simp [List.length_append, padSeq, hulen, be32, lenStr]
    omega
  unfold ssh_pki_openssh_privkey_export at h
  cases hti : pass.isSome || auth.isSome with
  | false =>
    rw [hti] at h
    simp only [Bool.false_eq_true, if_false] at h
    have hr := Option.some.inj h
    subst hr
    refine ⟨⟨_, parseHeader_mkContainer (ascii "none") (ascii "none") [] pubkey_s _ 1
        (by decide) (by decide) (by decide) hpk (by rw [hplen]; omega) (by decide),
        rfl, fun _ => ⟨rfl, rfl⟩⟩, ?_, ?_⟩
    · show ((be32 rnd ++ (be32 rnd ++ (blob ++ lenStr []))) ++
        padSeq 1 ((16 - (be32 rnd ++ (be32 rnd ++ (blob ++ lenStr []))).length % 16) % 16)).length % 16 = 0
      rw [hplen]; omega
    · exact ⟨_, rfl⟩
  | true =>
    rw [hti] at h
    simp only [if_true] at h
    by_cases herc :
        (pki_private_key_encrypt bcrypt enc
          ((be32 rnd ++ (be32 rnd ++ (blob ++ lenStr []))) ++
            padSeq 1 ((16 - (be32 rnd ++ (be32 rnd ++ (blob ++ lenStr []))).length % 16) % 16))
          pass (ascii "aes128-cbc") (ascii "bcrypt") auth 16 salt).rc = SSH_ERROR
    · rw [if_pos herc] at h
      exact absurd h (by simp)
    · rw [if_neg herc] at h
      have hr := Option.some.inj h
      subst hr
      have hbuflen := pki_private_key_encrypt_buf_length bcrypt enc
        ((be32 rnd ++ (be32 rnd ++ (blob ++ lenStr []))) ++
          padSeq 1 ((16 - (be32 rnd ++ (be32 rnd ++ (blob ++ lenStr []))).length % 16) % 16))
        pass (ascii "aes128-cbc") (ascii "bcrypt") auth 16 salt henc
      refine ⟨⟨_, parseHeader_mkContainer (ascii "aes128-cbc") (ascii "bcrypt")
          (lenStr salt ++ be32 16) pubkey_s _ 1
          (by decide) (by decide)
          (by simp [lenStr, be32, List.length_append]; omega)
          hpk (by rw [hbuflen, hplen]; omega) (by decide),
        rfl, ?_⟩, ?_, ?_⟩
      · rintro ⟨hpass, hauth⟩
        subst hpass; subst hauth
        simp at hti
      · show ((be32 rnd ++ (be32 rnd ++ (blob ++ lenStr []))) ++
          padSeq 1 ((16 - (be32 rnd ++ (be32 rnd ++ (blob ++ lenStr []))).length % 16) % 16)).length % 16 = 0
        rw [hplen]; omega
      · exact ⟨_, rfl⟩

/-- Witness for C8: the unencrypted export of an empty key blob — the
container parses back with key count 1 and cipher/kdf `"none"`, and the
private section is the 12 fixed bytes padded with 1,2,3,4. -/
theorem c8_witness :
    (∃ hd, parseHeader (ExportResult.container
        ⟨mkContainer (ascii "none") (ascii "none") [] []
          ((be32 0 ++ (be32 0 ++ ([] ++ lenStr []))) ++
            padSeq 1 ((16 - (be32 0 ++ (be32 0 ++ (([] : List Nat) ++ lenStr []))).length % 16) % 16)) 1,
         (be32 0 ++ (be32 0 ++ ([] ++ lenStr []))) ++
            padSeq 1 ((16 - (be32 0 ++ (be32 0 ++ (([] : List Nat) ++ lenStr []))).length % 16) % 16)⟩) =
        some hd ∧ hd.nkeys = 1 ∧
      ((none : Option (List Nat)) = none ∧ (none : Option (Int × List Nat)) = none →
        hd.ciphername = ascii "none" ∧ hd.kdfname = ascii "none"))
    ∧ (ExportResult.plainPriv
        ⟨mkContainer (ascii "none") (ascii "none") [] []
          ((be32 0 ++ (be32 0 ++ ([] ++ lenStr []))) ++
            padSeq 1 ((16 - (be32 0 ++ (be32 0 ++ (([] : List Nat) ++ lenStr []))).length % 16) % 16)) 1,
         (be32 0 ++ (be32 0 ++ ([] ++ lenStr []))) ++
            padSeq 1 ((16 - (be32 0 ++ (be32 0 ++ (([] : List Nat) ++ lenStr []))).length % 16) % 16)⟩).length % 16 = 0
    ∧ (∃ k, ExportResult.plainPriv
        ⟨mkContainer (ascii "none") (ascii "none") [] []
          ((be32 0 ++ (be32 0 ++ ([] ++ lenStr []))) ++
            padSeq 1 ((16 - (be32 0 ++ (be32 0 ++ (([] : List Nat) ++ lenStr []))).length % 16) % 16)) 1,
         (be32 0 ++ (be32 0 ++ ([] ++ lenStr []))) ++
            padSeq 1 ((16 - (be32 0 ++ (be32 0 ++ (([] : List Nat) ++ lenStr []))).length % 16) % 16)⟩ =
        (be32 0 ++ (be32 0 ++ (([] : List Nat) ++ lenStr []))) ++ padSeq 1 k) :=
  c8_export_properties (fun _ _ _ _ => none) (fun _ _ _ d => d) [] [] 0 [] none none
    _ (fun _ _ _ _ => rfl) (by decide) (by decide) (by decide) rfl

end LibsshProof
